import Mathlib

/-!
Verification development for the City of West Torrens development-application
scraper.  The definitions below are a shallow embedding of the canonical
revision of the scraper (scraper.js / the matching revision in scraper.ts):
the HTML DOM query capability, the HTTP transport and the SQLite store are
modelled at their interfaces, exactly as the source consumes them, and the
control flow of `main` (token negotiation, tab switch, date search, the
pagination do-while loop) is reproduced step by step.
-/

namespace WestTorrens

/-! ### Character and string utilities (kernel-friendly models of the JS
string operations the scraper uses). -/

/-- Single-quote character, written by code point to keep sources plain. -/
def squote : Char := Char.ofNat 39

/-- Double-quote character, written by code point to keep sources plain. -/
def dquote : Char := Char.ofNat 34

/-- Numeric value of a decimal digit list, as JavaScript `Number` computes it
for an all-digit string: fold of `n * 10 + digit`. -/
def digitsToNat (l : List Char) : Nat :=
  l.foldl (fun n c => n * 10 + (c.toNat - 48)) 0

/-- JS `String.prototype.trim`, on the character list. -/
def trimChars (l : List Char) : List Char :=
  ((l.dropWhile Char.isWhitespace).reverse.dropWhile Char.isWhitespace).reverse

/-- JS `String.prototype.trim`. -/
def trimStr (s : String) : String := String.mk (trimChars s.data)

/-- Does `l` start with the pattern `p` (character-wise)? -/
def listStartsWith : List Char → List Char → Bool
  | [], _ => true
  | _ :: _, [] => false
  | p :: ps, c :: cs => p == c && listStartsWith ps cs

/-- Auxiliary scan for `firstIdxOfSeq`, carrying the current index. -/
def firstIdxOfSeqAux (pat : List Char) : List Char → Nat → Option Nat
  | [], i => if pat.isEmpty then some i else none
  | c :: cs, i =>
    if listStartsWith pat (c :: cs) then some i else firstIdxOfSeqAux pat cs (i + 1)

/-- JS `String.prototype.indexOf(pattern)`: index of the first occurrence of
`pat` in `l`, `none` standing for the JS result `-1`. -/
def firstIdxOfSeq (pat l : List Char) : Option Nat := firstIdxOfSeqAux pat l 0

/-- Auxiliary scan for `idxOfCharFrom`, carrying the current index. -/
def idxOfCharFromAux (ch : Char) (start : Nat) : List Char → Nat → Option Nat
  | [], _ => none
  | c :: cs, i =>
    if start ≤ i && c == ch then some i else idxOfCharFromAux ch start cs (i + 1)

/-- JS `String.prototype.indexOf(ch, start)`: index of the first occurrence of
the character `ch` at position `start` or later, `none` standing for `-1`. -/
def idxOfCharFrom (l : List Char) (ch : Char) (start : Nat) : Option Nat :=
  idxOfCharFromAux ch start l 0

/-! ### The application-number pattern

`/[0-9]+\/[0-9]+.*/.test(applicationNumber)` — an unanchored regex search:
the string passes when some position starts a run of one or more digits,
immediately followed by a slash and a further digit (the trailing `.*`
matches anything, including nothing). -/

/-- After at least one digit has been consumed: accept when the remaining
characters continue with zero or more digits, then a slash, then a digit. -/
def matchTail : List Char → Bool
  | [] => false
  | c :: cs =>
    if c == '/' then
      match cs with
      | d :: _ => d.isDigit
      | [] => false
    else
      c.isDigit && matchTail cs

/-- Unanchored search for `[0-9]+/[0-9]+.*` over every start position. -/
def regexSearch : List Char → Bool
  | [] => false
  | c :: cs => (c.isDigit && matchTail cs) || regexSearch cs

/-- JS `/[0-9]+\/[0-9]+.*/.test(s)` from scraper.js line 149. -/
def appNumTest (s : String) : Bool := regexSearch s.data

/-! ### The lenient date parse

`moment(text, "D/MM/YYYY", true)` — strict format parsing: a day of one or
two digits (the leading zero of the day may be omitted), a slash, a month of
exactly two digits, a slash, a year of exactly four digits; the result is
valid only when it denotes a real calendar date. -/

/-- Gregorian leap-year rule, as used by the date library. -/
def isLeapYear (y : Nat) : Bool := (y % 4 == 0 && y % 100 != 0) || y % 400 == 0

/-- Days in a month, as used by the date library for overflow checking. -/
def daysInMonth (m y : Nat) : Nat :=
  if m == 2 then (if isLeapYear y then 29 else 28)
  else if m == 4 || m == 6 || m == 9 || m == 11 then 30
  else 31

/-- A calendar date as produced by the lenient parse. -/
structure SimpleDate where
  day : Nat
  month : Nat
  year : Nat
deriving DecidableEq

/-- Split a character list on a separator character (every occurrence). -/
def splitOn (sep : Char) : List Char → List (List Char)
  | [] => [[]]
  | c :: cs =>
    let r := splitOn sep cs
    if c == sep then [] :: r
    else
      match r with
      | h :: t => (c :: h) :: t
      | [] => [[c]]

/-- `moment(s, "D/MM/YYYY", true)` from scraper.js line 146: strict parse with
optional leading zero on the day only; `none` models an invalid moment. -/
def parseDMY (s : String) : Option SimpleDate :=
  match splitOn '/' s.data with
  | [ds, ms, ys] =>
    if decide (1 ≤ ds.length) && decide (ds.length ≤ 2) && decide (ms.length = 2)
        && decide (ys.length = 4) && ds.all Char.isDigit && ms.all Char.isDigit
        && ys.all Char.isDigit then
      let d := digitsToNat ds
      let m := digitsToNat ms
      let y := digitsToNat ys
      if decide (1 ≤ m) && decide (m ≤ 12) && decide (1 ≤ d)
          && decide (d ≤ daysInMonth m y) then
        some { day := d, month := m, year := y }
      else none
    else none
  | _ => none

/-- Dash character used by the date format. -/
def dashChar : Char := '-'

/-- `receivedDate.format("YYYY-MM-DD")`: four zero-padded year digits, dash,
two zero-padded month digits, dash, two zero-padded day digits. -/
def formatYMD (dt : SimpleDate) : String :=
  String.mk
    [Nat.digitChar (dt.year / 1000 % 10), Nat.digitChar (dt.year / 100 % 10),
     Nat.digitChar (dt.year / 10 % 10), Nat.digitChar (dt.year % 10), dashChar,
     Nat.digitChar (dt.month / 10 % 10), Nat.digitChar (dt.month % 10), dashChar,
     Nat.digitChar (dt.day / 10 % 10), Nat.digitChar (dt.day % 10)]

/-- Shape check for a `YYYY-MM-DD` string: exactly ten characters, digits in
the year, month and day positions and dashes in between. -/
def isYMDShape (s : String) : Bool :=
  match s.data with
  | [y1, y2, y3, y4, c1, m1, m2, c2, d1, d2] =>
    y1.isDigit && y2.isDigit && y3.isDigit && y4.isDigit && (c1 == dashChar)
      && m1.isDigit && m2.isDigit && (c2 == dashChar) && d1.isDigit && d2.isDigit
  | _ => false

/-! ### The page-count estimate (scraper.js lines 136 to 137)

`Math.max(1, Number(pageCountText.match(/[0-9]+$/)[0])) || 1` — the regex
takes the trailing run of digits.  When there is no trailing digit, `match`
returns null and indexing it with `[0]` throws a TypeError that aborts the
run: `none` models that thrown exception. -/

/-- The maximal run of decimal digits at the end of the string, as matched by
the regex `/[0-9]+$/`. -/
def trailingDigits (s : String) : List Char :=
  (s.data.reverse.takeWhile Char.isDigit).reverse

/-- The page count computation; `none` models the TypeError thrown when the
label has no trailing number (`match` returns null and is indexed). -/
def parsePageCount (s : String) : Option Nat :=
  let ds := trailingDigits s
  if ds.isEmpty then none
  else
    let v := max 1 (digitsToNat ds)
    some (if v == 0 then 1 else v)

/-! ### The session token extractor (scraper.js lines 57 to 70) -/

/-- The fixed marker preceding the client-capability token. -/
def jsTokenMarker : String := ".aspx?js="

/-- One iteration of the `parseToken` loop body, over one script text: find
the marker, then the first quote (double quotes first rewritten to single
quotes) after it; return the characters in between when that span is
non-empty, else give up on this script. -/
def parseTokenScript (text : List Char) : Option String :=
  match firstIdxOfSeq jsTokenMarker.data text with
  | none => none
  | some i =>
    let start := i + jsTokenMarker.data.length
    let replaced := text.map (fun c => if c == dquote then squote else c)
    match idxOfCharFrom replaced squote start with
    | some e =>
      if start < e then some (String.mk ((text.drop start).take (e - start)))
      else none
    | none => none

/-- `parseToken(body)`: scan every script of the page in order; return the
first successfully extracted token, else null (`none`). -/
def parseToken : List String → Option String
  | [] => none
  | s :: rest =>
    match parseTokenScript s.data with
    | some t => some t
    | none => parseToken rest

/-! ### URLs (scraper.js lines 13 to 17) -/

/-- Landing page URL. -/
def DevelopmentApplicationsDefaultUrl : String :=
  "https://epathway.wtcc.sa.gov.au/ePathway/Production/Web/default.aspx"

/-- Enquiry-lists page URL. -/
def DevelopmentApplicationsEnquiryListsUrl : String :=
  "https://epathway.wtcc.sa.gov.au/ePathway/Production/Web/GeneralEnquiry/EnquiryLists.aspx"

/-- Enquiry-search page URL (tab switch and date-range search postbacks). -/
def DevelopmentApplicationsEnquirySearchUrl : String :=
  "https://epathway.wtcc.sa.gov.au/ePathway/Production/Web/GeneralEnquiry/EnquirySearch.aspx"

/-- Summary-view page URL (page-fetch postbacks). -/
def DevelopmentApplicationsEnquirySummaryViewUrl : String :=
  "https://epathway.wtcc.sa.gov.au/ePathway/Production/Web/GeneralEnquiry/EnquirySummaryView.aspx"

/-- Information URL stored with every record. -/
def DevelopmentApplicationsInformationUrl : String :=
  "https://epathway.wtcc.sa.gov.au/ePathway/Production/Web/GeneralEnquiry/EnquiryLists.aspx?ModuleCode=LAP"

/-! ### Records and the store (scraper.js lines 19 to 55)

The store is the `data` table keyed by `council_reference` (the application
number); `insertRow` runs `insert or replace into [data] values (...)`, so a
row whose key is present is replaced and a fresh key is appended. -/

/-- The object handed to `insertRow` (scraper.js lines 150 to 157). -/
structure DevelopmentApplication where
  applicationNumber : String
  address : String
  description : String
  informationUrl : String
  scrapeDate : String
  receivedDate : String
deriving DecidableEq

/-- SQLite `insert or replace` on the primary key `council_reference`:
replace the stored row with the same key in place, else append. -/
def insertOrReplaceRow (db : List DevelopmentApplication)
    (a : DevelopmentApplication) : List DevelopmentApplication :=
  if db.any (fun r => r.applicationNumber == a.applicationNumber) then
    db.map (fun r => if r.applicationNumber == a.applicationNumber then a else r)
  else
    db ++ [a]

/-- A sequence of `insertRow` calls, in order. -/
def insertAll (db : List DevelopmentApplication)
    (recs : List DevelopmentApplication) : List DevelopmentApplication :=
  recs.foldl insertOrReplaceRow db

/-- The key column of the store. -/
def keysOf (db : List DevelopmentApplication) : List String :=
  db.map (fun r => r.applicationNumber)

/-! ### The record extractor (scraper.js lines 142 to 160) -/

/-- The loop body over one `tr` element, given its `td` cell texts: rows of
fewer than four cells are skipped; otherwise the four positional cells are
trimmed, and the row is inserted only when the application number passes the
regex test and the received date is a valid lenient parse.  The stored
received date falls back to the empty string when the moment is invalid
(scraper.js line 156). -/
def processRow (scrapeDate : String) (cells : List String) :
    Option DevelopmentApplication :=
  if 4 ≤ cells.length then
    let applicationNumber := trimStr (cells.getD 0 "")
    let receivedDate := parseDMY (trimStr (cells.getD 1 ""))
    let description := trimStr (cells.getD 2 "")
    let address := trimStr (cells.getD 3 "")
    if appNumTest applicationNumber && receivedDate.isSome then
      some
        { applicationNumber := applicationNumber
          address := address
          description := description
          informationUrl := DevelopmentApplicationsInformationUrl
          scrapeDate := scrapeDate
          receivedDate :=
            match receivedDate with
            | some d => formatYMD d
            | none => "" }
    else none
  else none

/-- All records a page of results contributes, in row order: exactly the
records handed to `insertRow` while that page is processed. -/
def pageRecords (scrapeDate : String) (rows : List (List String)) :
    List DevelopmentApplication :=
  rows.filterMap (processRow scrapeDate)

/-- The acceptance condition of `processRow`, stated on the cells alone: at
least four cells, application number passing the regex test, received date
parsing under the lenient rule. -/
def rowQualifies (cells : List String) : Bool :=
  decide (4 ≤ cells.length) && appNumTest (trimStr (cells.getD 0 ""))
    && (parseDMY (trimStr (cells.getD 1 ""))).isSome

/-! ### The crawl state machine (scraper.js lines 72 to 181)

A response page is consumed through four queries only: the two hidden token
inputs (absent inputs give `undefined`, modelled `none`), the page-count
label text, the table rows, and the script texts.  The HTTP transport is an
oracle: the response to the page-fetch POST for page n is `pageResp n`. -/

/-- A response page, at the DOM query interface the scraper consumes. -/
structure Page where
  eventValidation : Option String
  viewState : Option String
  pageCountLabel : String
  rows : List (List String)
  scripts : List String

/-- An HTTP request the crawler issues; POST bodies carry the form fields in
order, token fields holding whatever was extracted (possibly `undefined`). -/
inductive Request where
  | get (url : String)
  | post (url : String) (form : List (String × Option String))
deriving DecidableEq

/-- The tab-switch POST body (scraper.js lines 102 to 107). -/
def tabSwitchForm (ev vs : Option String) : List (String × Option String) :=
  [("__EVENTARGUMENT", some "2"),
   ("__EVENTTARGET",
    some "ctl00$MainBodyContent$mGeneralEnquirySearchControl$mTabControl$tabControlMenu"),
   ("__EVENTVALIDATION", ev),
   ("__VIEWSTATE", vs)]

/-- The date-range search POST body (scraper.js lines 121 to 129). -/
def searchForm (ev vs : Option String) (dateFrom dateTo : String) :
    List (String × Option String) :=
  [("__EVENTVALIDATION", ev),
   ("__VIEWSTATE", vs),
   ("ctl00$MainBodyContent$mGeneralEnquirySearchControl$mEnquiryListsDropDownList", some "10"),
   ("ctl00$MainBodyContent$mGeneralEnquirySearchControl$mSearchButton", some "Search"),
   ("ctl00$MainBodyContent$mGeneralEnquirySearchControl$mTabControl$ctl14$DateSearchRadioGroup",
    some "mLast30RadioButton"),
   ("ctl00$MainBodyContent$mGeneralEnquirySearchControl$mTabControl$ctl14$mFromDatePicker$dateTextBox",
    some dateFrom),
   ("ctl00$MainBodyContent$mGeneralEnquirySearchControl$mTabControl$ctl14$mToDatePicker$dateTextBox",
    some dateTo)]

/-- The page-fetch POST body (scraper.js lines 170 to 175). -/
def pageFetchForm (pn : Nat) (ev vs : Option String) : List (String × Option String) :=
  [("__EVENTARGUMENT", some ""),
   ("__EVENTTARGET",
    some ("ctl00$MainBodyContent$mPagingControl$pageButton_" ++ Nat.repr pn)),
   ("__EVENTVALIDATION", ev),
   ("__VIEWSTATE", vs)]

/-- One crawl run's external environment: the four responses of the fixed
request chain, the page-fetch response oracle, and the current-date strings
the run computes from the clock. -/
structure CrawlInput where
  landing : Page
  enquiryLists : Page
  tabSwitchResp : Page
  searchResp : Page
  pageResp : Nat → Page
  scrapeDate : String
  dateFrom : String
  dateTo : String

/-- The observable outcome of a run: the requests issued in order, the final
store contents, whether the run aborted with a thrown exception, and whether
the loop model ran out of fuel (provably never, see `crawl_fuelOut_false`). -/
structure CrawlOutcome where
  requests : List Request
  db : List DevelopmentApplication
  aborted : Bool
  fuelOut : Bool
deriving DecidableEq

/-- The pagination do-while loop (scraper.js lines 138 to 180).  Each
iteration processes the rows of the current page, then breaks when the
incremented page number exceeds `pageCount`; otherwise it issues the
page-fetch POST carrying the tokens extracted from the current page, takes
the oracle response as the next page, and re-enters subject to the source's
while-condition `pageCount === null || pageNumber <= pageCount ||
pageNumber >= 100` (`pageCount` is a number, never null, so the null
disjunct is dropped). -/
def crawlLoop (inp : CrawlInput) (pageCount : Nat) :
    Nat → Nat → Page → List Request → List DevelopmentApplication → CrawlOutcome
  | 0, _, _, reqs, db =>
    { requests := reqs, db := db, aborted := false, fuelOut := true }
  | fuel + 1, pageNumber, page, reqs, db =>
    let pn := pageNumber + 1
    let db2 := insertAll db (pageRecords inp.scrapeDate page.rows)
    if pageCount < pn then
      { requests := reqs, db := db2, aborted := false, fuelOut := false }
    else
      let req := Request.post
        (DevelopmentApplicationsEnquirySummaryViewUrl ++ "?PageNumber=" ++ Nat.repr pn)
        (pageFetchForm pn page.eventValidation page.viewState)
      if decide (pn ≤ pageCount) || decide (100 ≤ pn) then
        crawlLoop inp pageCount fuel pn (inp.pageResp pn) (reqs ++ [req]) db2
      else
        { requests := reqs ++ [req], db := db2, aborted := false, fuelOut := false }

/-- The requests issued before the pagination loop, in order: GET the landing
page; when a client-capability token was extracted, GET the landing page
again with the token appended; GET the enquiry-lists page; POST the
tab-switch postback carrying the tokens extracted from the enquiry-lists
response; POST the date-range search carrying the tokens extracted from the
tab-switch response (scraper.js lines 78 to 130). -/
def crawlPrefixReqs (inp : CrawlInput) : List Request :=
  [Request.get DevelopmentApplicationsDefaultUrl]
    ++ (match parseToken inp.landing.scripts with
        | some t => [Request.get (DevelopmentApplicationsDefaultUrl ++ "?js=" ++ t)]
        | none => [])
    ++ [Request.get DevelopmentApplicationsEnquiryListsUrl,
        Request.post DevelopmentApplicationsEnquirySearchUrl
          (tabSwitchForm inp.enquiryLists.eventValidation inp.enquiryLists.viewState),
        Request.post DevelopmentApplicationsEnquirySearchUrl
          (searchForm inp.tabSwitchResp.eventValidation inp.tabSwitchResp.viewState
            inp.dateFrom inp.dateTo)]

/-- One whole crawl run (`main`): the fixed request chain, then the
page-count estimate from the first results page — whose parse failure is a
thrown TypeError aborting the run with nothing stored — then the pagination
loop starting on the search response as page 1 with an empty store. -/
def crawl (inp : CrawlInput) : CrawlOutcome :=
  match parsePageCount inp.searchResp.pageCountLabel with
  | none =>
    { requests := crawlPrefixReqs inp, db := [], aborted := true, fuelOut := false }
  | some pageCount =>
    crawlLoop inp pageCount (pageCount + 1) 1 inp.searchResp (crawlPrefixReqs inp) []

/-- Is this request a page-fetch POST (a POST against the summary-view URL)? -/
def isPageFetchPost : Request → Bool
  | Request.post u _ =>
    listStartsWith (DevelopmentApplicationsEnquirySummaryViewUrl ++ "?PageNumber=").data u.data
  | Request.get _ => false

/-- Is this request the token re-GET of the landing page? -/
def isJsTokenGet : Request → Bool
  | Request.get u => listStartsWith (DevelopmentApplicationsDefaultUrl ++ "?js=").data u.data
  | Request.post _ _ => false

/-! ### Concrete fixtures used to settle the claims -/

/-- A response page with both tokens present and nothing else of interest. -/
def quietPage : Page :=
  { eventValidation := some "tokenEV", viewState := some "tokenVS",
    pageCountLabel := "", rows := [], scripts := [] }

/-- The scenario table row of the spec that must yield a record. -/
def goodRow : List String := ["123/2024", "8/03/2024", "Carport", "1 Smith St"]

/-- The scenario heading row of the spec that must be dropped. -/
def headingRow : List String := ["", "", "Heading", ""]

/-- Environment whose first results page reports 200 pages of results. -/
def inpC1 : CrawlInput :=
  { landing := { quietPage with scripts := ["var x = 1;"] }
    enquiryLists := quietPage
    tabSwitchResp := quietPage
    searchResp := { quietPage with pageCountLabel := "Page 1 of 200" }
    pageResp := fun _ => quietPage
    scrapeDate := "2024-03-10"
    dateFrom := "10/02/2024"
    dateTo := "10/03/2024" }

/-- Environment whose first results page carries a qualifying row but a
page-count label with no trailing number. -/
def inpC2 : CrawlInput :=
  { landing := { quietPage with scripts := ["var x = 1;"] }
    enquiryLists := quietPage
    tabSwitchResp := quietPage
    searchResp := { quietPage with pageCountLabel := "", rows := [goodRow] }
    pageResp := fun _ => quietPage
    scrapeDate := "2024-03-10"
    dateFrom := "10/02/2024"
    dateTo := "10/03/2024" }

/-- Environment whose enquiry-lists response carries neither hidden token. -/
def inpC3 : CrawlInput :=
  { landing := { quietPage with scripts := ["var x = 1;"] }
    enquiryLists := { quietPage with eventValidation := none, viewState := none }
    tabSwitchResp := quietPage
    searchResp := { quietPage with pageCountLabel := "Page 1 of 1" }
    pageResp := fun _ => quietPage
    scrapeDate := "2024-03-10"
    dateFrom := "10/02/2024"
    dateTo := "10/03/2024" }

/-- Environment whose landing page carries no client-capability marker. -/
def inpC8w : CrawlInput :=
  { landing := { quietPage with scripts := ["var noMarkerHere = 1;"] }
    enquiryLists := quietPage
    tabSwitchResp := quietPage
    searchResp := { quietPage with pageCountLabel := "Page 1 of 1" }
    pageResp := fun _ => quietPage
    scrapeDate := "2024-03-10"
    dateFrom := "10/02/2024"
    dateTo := "10/03/2024" }

/-- Environment with a single results page holding the scenario row. -/
def inpC9w : CrawlInput :=
  { landing := { quietPage with scripts := ["var x = 1;"] }
    enquiryLists := quietPage
    tabSwitchResp := quietPage
    searchResp := { quietPage with pageCountLabel := "Page 1 of 1", rows := [goodRow] }
    pageResp := fun _ => quietPage
    scrapeDate := "2024-03-10"
    dateFrom := "10/02/2024"
    dateTo := "10/03/2024" }

/-- The record the scenario row normalizes to under scrape date 2024-03-10. -/
def recC9w : DevelopmentApplication :=
  { applicationNumber := "123/2024", address := "1 Smith St",
    description := "Carport", informationUrl := DevelopmentApplicationsInformationUrl,
    scrapeDate := "2024-03-10", receivedDate := "2024-03-08" }

/-- A stored record, for exercising the duplicate-key policy. -/
def recOldC10 : DevelopmentApplication :=
  { applicationNumber := "123/2024", address := "1 Smith St",
    description := "Carport", informationUrl := DevelopmentApplicationsInformationUrl,
    scrapeDate := "2024-03-09", receivedDate := "2024-03-08" }

/-- A re-crawled record with the same key and changed non-key fields. -/
def recNewC10 : DevelopmentApplication :=
  { applicationNumber := "123/2024", address := "2 Smith St",
    description := "Carport and verandah", informationUrl := DevelopmentApplicationsInformationUrl,
    scrapeDate := "2024-03-10", receivedDate := "2024-03-08" }

/-- A landing-page script carrying the marker token of the spec scenario,
single quotes written by code point. -/
def tokenScriptC7 : String :=
  "if (top != self) top.location.href = " ++ squote.toString
    ++ "EnquiryLists.aspx?js=abc123" ++ squote.toString ++ ";"

/-!
## Theorems
-/

/-! ### Loop faithfulness: the fuel supplied by `crawl` never runs out -/

/-- The loop exits by the in-body break before its fuel is exhausted,
whenever the fuel covers the remaining pages. -/
theorem crawlLoop_fuelOut_false (inp : CrawlInput) (pageCount : Nat) :
    ∀ (fuel pageNumber : Nat) (page : Page) (reqs : List Request)
      (db : List DevelopmentApplication),
      pageCount + 1 ≤ fuel + pageNumber → 1 ≤ fuel →
      (crawlLoop inp pageCount fuel pageNumber page reqs db).fuelOut = false := by
  intro fuel
  induction fuel with
  | zero => intro pageNumber page reqs db _ h1; omega
  | succ f ih =>
    intro pageNumber page reqs db hle _
    simp only [crawlLoop]
    split
    · rfl
    · split
      · apply ih
        · omega
        · rename_i hbreak hwhile
          rw [Bool.or_eq_true, decide_eq_true_iff, decide_eq_true_iff] at hwhile
          omega
      · rfl

/-- Witness that `crawlLoop_fuelOut_false` applies to a concrete run. -/
theorem crawlLoop_fuelOut_false_witness :
    (1 : Nat) + 1 ≤ 2 + 1 ∧ 1 ≤ 2 ∧
      (crawlLoop inpC9w 1 2 1 inpC9w.searchResp [] []).fuelOut = false :=
  ⟨by decide, by decide,
    crawlLoop_fuelOut_false inpC9w 1 2 1 inpC9w.searchResp [] [] (by decide) (by decide)⟩

/-- The model of `main` never exhausts its loop fuel: the outcome of `crawl`
is always an outcome the source program itself reaches. -/
theorem crawl_fuelOut_false (inp : CrawlInput) : (crawl inp).fuelOut = false := by
  unfold crawl
  split
  · rfl
  · exact crawlLoop_fuelOut_false inp _ _ 1 inp.searchResp (crawlPrefixReqs inp) []
      (by omega) (by omega)

/-! ### C1, C2: the pagination loop on the failing inputs -/

set_option maxRecDepth 100000

/-- C1: the claim says the Pagination Controller issues at most 100
page-fetch POSTs per run because the loop checks a hard ceiling of 100 on
every iteration.  The code does not: when the first results page reports 200
pages, the run issues 199 page-fetch POSTs — the `pageNumber >= 100`
disjunct of the do-while condition continues the loop instead of stopping
it, so the only exit is `pageNumber > pageCount`, and the ceiling the
source comments claim to enforce never applies. -/
theorem C1_no_hard_ceiling_at_200 :
    (crawl inpC1).requests.countP isPageFetchPost = 199 ∧ 100 < 199 ∧
      (crawl inpC1).aborted = false ∧ (crawl inpC1).fuelOut = false := by
  refine ⟨by decide, by decide, by decide, by decide⟩

/-- C2: the claim says an unparsable page-count label makes the controller
behave as though `pageCount == 1`, processing the first page and stopping.
The code instead throws: `pageCountText.match(/[0-9]+$/)` is null when the
label has no trailing number, indexing it raises a TypeError, and the run
aborts having processed no row at all — even though the first page held a
qualifying row. -/
theorem C2_unparsable_page_count_aborts :
    parsePageCount inpC2.searchResp.pageCountLabel = none ∧
      (crawl inpC2).aborted = true ∧ (crawl inpC2).db = [] ∧
      rowQualifies goodRow = true := by
  refine ⟨by decide, by decide, by decide, by decide⟩

/-- C3 counterexample: with both hidden tokens absent from the enquiry-lists
response, the controller still submits the tab-switch postback — the third
request of the run is that POST, its token fields carrying the absent
values — and the run is not aborted, contradicting the claim that the
controller aborts instead of submitting. -/
theorem C3_postback_submitted_without_tokens :
    (crawl inpC3).requests.getD 2 (Request.get "") =
        Request.post DevelopmentApplicationsEnquirySearchUrl (tabSwitchForm none none) ∧
      (crawl inpC3).aborted = false := by
  refine ⟨by decide, by decide⟩

/-! ### C6: the lenient date parse -/

/-- C6: the lenient parser accepts `"8/03/2024"` as day 8, month 3,
year 2024 — the leading zero may be omitted on the day — while the
month must keep its two digits: `"8/3/2024"` is rejected. -/
theorem C6_lenient_date_parse :
    parseDMY "8/03/2024" = some { day := 8, month := 3, year := 2024 } ∧
      parseDMY "8/3/2024" = none := by
  refine ⟨by decide, by decide⟩

/-! ### C7: the session token extractor -/

/-- C7: on a landing page whose script text contains
`EnquiryLists.aspx?js=abc123` followed by a quote, `parseToken` returns
exactly the characters between the fixed marker `.aspx?js=` and the next
quote: the string `abc123`.  An earlier script without the marker is
scanned and passed over. -/
theorem C7_session_token_extraction :
    parseToken ["var noMarker = 1;", tokenScriptC7] = some "abc123" := by
  decide

/-! ### C4: the record extractor, row by row -/

/-- The spec scenario row normalizes to exactly this record. -/
theorem processRow_goodRow (sd : String) :
    processRow sd goodRow =
      some { applicationNumber := "123/2024", address := "1 Smith St",
             description := "Carport",
             informationUrl := DevelopmentApplicationsInformationUrl,
             scrapeDate := sd, receivedDate := "2024-03-08" } := rfl

/-- The spec heading row is dropped (empty application number). -/
theorem processRow_headingRow (sd : String) : processRow sd headingRow = none := rfl

/-- C4: a table row yields exactly one normalized record when it has at
least four cells, its trimmed first cell passes the application-number regex
test and its trimmed second cell parses under the lenient day-of-month rule;
every other row yields zero records.  In particular the scenario page
holding the row `123/2024, 8/03/2024, Carport, 1 Smith St` and the row of
empty application number yields exactly one record. -/
theorem C4_record_extractor_row_semantics :
    (∀ (sd : String) (cells : List String),
        (processRow sd cells).toList.length = if rowQualifies cells then 1 else 0) ∧
      ∀ sd : String, (pageRecords sd [goodRow, headingRow]).length = 1 := by
  constructor
  · intro sd cells
    by_cases h4 : 4 ≤ cells.length
    · simp only [processRow, rowQualifies, if_pos h4, decide_eq_true h4, Bool.true_and]
      cases hg : appNumTest (trimStr (cells.getD 0 ""))
          && (parseDMY (trimStr (cells.getD 1 ""))).isSome <;> simp
    · simp [processRow, rowQualifies, h4]
  · intro sd
    simp [pageRecords, List.filterMap_cons, processRow_goodRow, processRow_headingRow]

/-! ### C5, C10: the store under insert-or-replace -/

/-- Replacing the rows that share the new key leaves the key column
unchanged. -/
theorem keysOf_replace (db : List DevelopmentApplication) (a : DevelopmentApplication) :
    keysOf (db.map (fun r =>
      if r.applicationNumber == a.applicationNumber then a else r)) = keysOf db := by
  unfold keysOf
  rw [List.map_map]
  apply List.map_congr_left
  intro r _
  simp only [Function.comp_apply]
  split
  · next hk => exact (eq_of_beq hk).symm
  · rfl

/-- Insert-or-replace preserves distinctness of the key column. -/
theorem nodup_keysOf_insertOrReplaceRow (db : List DevelopmentApplication)
    (a : DevelopmentApplication) (h : (keysOf db).Nodup) :
    (keysOf (insertOrReplaceRow db a)).Nodup := by
  unfold insertOrReplaceRow
  split
  · next hany => rw [keysOf_replace]; exact h
  · next hany =>
    unfold keysOf at h ⊢
    rw [List.map_append, List.nodup_append]
    refine ⟨h, List.nodup_singleton _, ?_⟩
    intro x hx hx2
    simp only [List.map_cons, List.map_nil, List.mem_singleton] at hx2
    subst hx2
    rw [List.mem_map] at hx
    obtain ⟨r, hr, hkey⟩ := hx
    exact hany (List.any_eq_true.mpr ⟨r, hr, beq_iff_eq.mpr hkey⟩)

/-- A whole sequence of inserts preserves distinctness of the key column. -/
theorem nodup_keysOf_insertAll :
    ∀ (recs db : List DevelopmentApplication),
      (keysOf db).Nodup → (keysOf (insertAll db recs)).Nodup := by
  intro recs
  induction recs with
  | nil => intro db h; simpa [insertAll] using h
  | cons a rest ih =>
    intro db h
    simp only [insertAll, List.foldl_cons] at ih ⊢
    exact ih (insertOrReplaceRow db a) (nodup_keysOf_insertOrReplaceRow db a h)

/-- C5: after any sequence of `insertRow` calls starting from an empty
store — re-runs over overlapping date windows included — the store holds at
most one entry per application number: re-submitting a previously seen key
never creates a second stored entry. -/
theorem C5_store_at_most_one_entry_per_key :
    ∀ (records : List DevelopmentApplication) (k : String),
      (insertAll [] records).countP (fun r => r.applicationNumber == k) ≤ 1 := by
  intro records k
  have hnd : (keysOf (insertAll [] records)).Nodup :=
    nodup_keysOf_insertAll records [] (by simp [keysOf])
  have h1 := List.nodup_iff_count_le_one.mp hnd k
  calc (insertAll [] records).countP (fun r => r.applicationNumber == k)
      = (keysOf (insertAll [] records)).count k := by
        rw [List.count, keysOf, List.countP_map]; rfl
    _ ≤ 1 := h1

/-- Replacement finds the fresh record under its key afterwards. -/
theorem find_replace (a : DevelopmentApplication) :
    ∀ db : List DevelopmentApplication,
      (∃ r ∈ db, r.applicationNumber = a.applicationNumber) →
      (db.map (fun r =>
          if r.applicationNumber == a.applicationNumber then a else r)).find?
        (fun r => r.applicationNumber == a.applicationNumber) = some a := by
  intro db
  induction db with
  | nil => rintro ⟨r, hr, _⟩; cases hr
  | cons h t ih =>
    rintro ⟨r, hr, hk⟩
    by_cases hh : (h.applicationNumber == a.applicationNumber) = true
    · rw [List.map_cons, if_pos hh]
      exact List.find?_cons_of_pos _ (beq_self_eq_true _)
    · rw [List.map_cons, if_neg hh, List.find?_cons_of_neg _ (by simpa using hh)]
      apply ih
      rcases List.mem_cons.mp hr with hrh | hrt
      · exact absurd (beq_iff_eq.mpr (hrh ▸ hk)) hh
      · exact ⟨r, hrt, hk⟩

/-- C10: the duplicate-key conflict policy of the canonical revision is
overwrite: inserting a record whose application number is already stored
replaces the stored entry — the lookup under that key afterwards returns the
new record with its new non-key fields — and adds no entry; being the
definition of `insertRow`, the policy applies to every insert of the run. -/
theorem C10_duplicate_key_overwrites :
    ∀ (db : List DevelopmentApplication) (a : DevelopmentApplication),
      (∃ r ∈ db, r.applicationNumber = a.applicationNumber) →
      (insertOrReplaceRow db a).find?
          (fun r => r.applicationNumber == a.applicationNumber) = some a ∧
        (insertOrReplaceRow db a).length = db.length := by
  intro db a hex
  have hany : db.any (fun r => r.applicationNumber == a.applicationNumber) = true := by
    obtain ⟨r, hr, hk⟩ := hex
    exact List.any_eq_true.mpr ⟨r, hr, beq_iff_eq.mpr hk⟩
  unfold insertOrReplaceRow
  rw [if_pos hany]
  exact ⟨find_replace a db hex, by rw [List.length_map]⟩

/-- Witness for C10: re-inserting key 123/2024 with a changed address
overwrites the stored entry and leaves the store at one entry. -/
theorem C10_duplicate_key_overwrites_witness :
    (∃ r ∈ [recOldC10], r.applicationNumber = recNewC10.applicationNumber) ∧
      ((insertOrReplaceRow [recOldC10] recNewC10).find?
          (fun r => r.applicationNumber == recNewC10.applicationNumber) = some recNewC10 ∧
        (insertOrReplaceRow [recOldC10] recNewC10).length = [recOldC10].length) :=
  ⟨by decide, C10_duplicate_key_overwrites [recOldC10] recNewC10 (by decide)⟩

/-! ### C9: every stored received date is a formatted calendar date -/

/-- A decimal digit character is a digit character. -/
theorem digitChar_mod10_isDigit (n : Nat) : (Nat.digitChar (n % 10)).isDigit = true := by
  have h : n % 10 < 10 := Nat.mod_lt _ (by omega)
  revert h
  generalize n % 10 = k
  intro h
  exact (by decide : ∀ k, k < 10 → (Nat.digitChar k).isDigit = true) k h

/-- Every formatted date has the `YYYY-MM-DD` shape. -/
theorem isYMDShape_formatYMD (dt : SimpleDate) : isYMDShape (formatYMD dt) = true := by
  simp [formatYMD, isYMDShape, digitChar_mod10_isDigit, dashChar]

/-- Every record a page contributes carries a `YYYY-MM-DD` received date:
the acceptance test of `processRow` guarantees the parse succeeded, so the
empty-string fallback of the `receivedDate` field is never taken. -/
theorem pageRecords_shape (sd : String) (rows : List (List String)) :
    ∀ r ∈ pageRecords sd rows, isYMDShape r.receivedDate = true := by
  intro r hr
  rw [pageRecords, List.mem_filterMap] at hr
  obtain ⟨cells, _, hc⟩ := hr
  simp only [processRow] at hc
  split at hc
  · split at hc
    · rename_i hg
      rw [Bool.and_eq_true] at hg
      obtain ⟨d, hd⟩ := Option.isSome_iff_exists.mp hg.2
      rw [hd] at hc
      injection hc with hc
      rw [← hc]
      exact isYMDShape_formatYMD d
    · cases hc
  · cases hc

/-- Membership after one insert: an entry is an old one or the new record. -/
theorem mem_insertOrReplaceRow (db : List DevelopmentApplication)
    (a x : DevelopmentApplication) (hx : x ∈ insertOrReplaceRow db a) :
    x ∈ db ∨ x = a := by
  unfold insertOrReplaceRow at hx
  split at hx
  · rw [List.mem_map] at hx
    obtain ⟨r, hr, hrx⟩ := hx
    by_cases hk : (r.applicationNumber == a.applicationNumber) = true
    · rw [if_pos hk] at hrx
      right
      exact hrx.symm
    · rw [if_neg hk] at hrx
      left
      exact hrx ▸ hr
  · rcases List.mem_append.mp hx with h | h
    · left
      exact h
    · right
      simpa using h

/-- A property of all stored entries and all inserted records holds of all
entries after a sequence of inserts. -/
theorem mem_insertAll (P : DevelopmentApplication → Prop) :
    ∀ (recs db : List DevelopmentApplication),
      (∀ x ∈ db, P x) → (∀ x ∈ recs, P x) → ∀ x ∈ insertAll db recs, P x := by
  intro recs
  induction recs with
  | nil =>
    intro db hdb _ x hx
    exact hdb x (by simpa [insertAll] using hx)
  | cons a rest ih =>
    intro db hdb hrecs x hx
    simp only [insertAll, List.foldl_cons] at hx
    refine ih (insertOrReplaceRow db a) ?_
      (fun y hy => hrecs y (List.mem_cons_of_mem a hy)) x hx
    intro y hy
    rcases mem_insertOrReplaceRow db a y hy with h | h
    · exact hdb y h
    · exact h ▸ hrecs a (List.mem_cons_self a rest)

/-- The pagination loop only ever stores records contributed by pages. -/
theorem crawlLoop_db_shape (inp : CrawlInput) (pageCount : Nat)
    (P : DevelopmentApplication → Prop)
    (hP : ∀ (rows : List (List String)), ∀ r ∈ pageRecords inp.scrapeDate rows, P r) :
    ∀ (fuel pageNumber : Nat) (page : Page) (reqs : List Request)
      (db : List DevelopmentApplication), (∀ x ∈ db, P x) →
      ∀ x ∈ (crawlLoop inp pageCount fuel pageNumber page reqs db).db, P x := by
  intro fuel
  induction fuel with
  | zero =>
    intro pageNumber page reqs db hdb x hx
    exact hdb x hx
  | succ f ih =>
    intro pageNumber page reqs db hdb x hx
    simp only [crawlLoop] at hx
    split at hx
    · exact mem_insertAll P _ db hdb (hP page.rows) x hx
    · split at hx
      · exact ih _ _ _ _ (mem_insertAll P _ db hdb (hP page.rows)) x hx
      · exact mem_insertAll P _ db hdb (hP page.rows) x hx

/-- C9: every record the crawler stores — equivalently, every record it
passes to `insertRow`, since the store only receives extracted records —
carries a received date in `YYYY-MM-DD` shape coming from a successful
lenient parse; the empty-string fallback at the insert call site is
unreachable because insertion is guarded by the same validity test. -/
theorem C9_stored_dates_are_ymd :
    ∀ (inp : CrawlInput) (r : DevelopmentApplication),
      r ∈ (crawl inp).db → isYMDShape r.receivedDate = true := by
  intro inp r hr
  unfold crawl at hr
  split at hr
  · cases hr
  · exact crawlLoop_db_shape inp _ _ (fun rows => pageRecords_shape inp.scrapeDate rows)
      _ 1 inp.searchResp (crawlPrefixReqs inp) [] (fun x hx => absurd hx (List.not_mem_nil x))
      r hr

/-- Witness for C9: the scenario record is stored by a concrete run and its
received date has the `YYYY-MM-DD` shape. -/
theorem C9_stored_dates_are_ymd_witness :
    recC9w ∈ (crawl inpC9w).db ∧ isYMDShape recC9w.receivedDate = true :=
  ⟨by decide, C9_stored_dates_are_ymd inpC9w recC9w (by decide)⟩

/-! ### C3 (amended) and C8: the request trace -/

/-- The pagination loop only ever appends POST requests to the trace. -/
theorem crawlLoop_requests_shape (inp : CrawlInput) (pageCount : Nat) :
    ∀ (fuel pageNumber : Nat) (page : Page) (reqs : List Request)
      (db : List DevelopmentApplication),
      ∃ extra,
        (crawlLoop inp pageCount fuel pageNumber page reqs db).requests = reqs ++ extra ∧
          ∀ r ∈ extra, ∃ u f, r = Request.post u f := by
  intro fuel
  induction fuel with
  | zero =>
    intro pageNumber page reqs db
    exact ⟨[], by simp [crawlLoop], by simp⟩
  | succ f ih =>
    intro pageNumber page reqs db
    simp only [crawlLoop]
    split
    · exact ⟨[], by simp, by simp⟩
    · split
      · obtain ⟨extra, he, hp⟩ := ih (pageNumber + 1) (inp.pageResp (pageNumber + 1))
          (reqs ++ [Request.post
            (DevelopmentApplicationsEnquirySummaryViewUrl ++ "?PageNumber="
              ++ Nat.repr (pageNumber + 1))
            (pageFetchForm (pageNumber + 1) page.eventValidation page.viewState)])
          (insertAll db (pageRecords inp.scrapeDate page.rows))
        refine ⟨Request.post
            (DevelopmentApplicationsEnquirySummaryViewUrl ++ "?PageNumber="
              ++ Nat.repr (pageNumber + 1))
            (pageFetchForm (pageNumber + 1) page.eventValidation page.viewState) :: extra,
          ?_, ?_⟩
        · rw [he, List.append_assoc]
          rfl
        · intro r hr
          rcases List.mem_cons.mp hr with h | h
          · exact ⟨_, _, h⟩
          · exact hp r h
      · refine ⟨_, rfl, ?_⟩
        intro r hr
        rcases List.mem_singleton.mp hr with h
        exact ⟨_, _, h⟩

/-- C3 (amended): the controller submits every postback unconditionally,
each one carrying exactly the token values extracted from the response that
preceded it — including absent values when a hidden token was missing; no
check, diagnostic or abort guards the submission.  Stated for the tab-switch
and search postbacks: both are always in the request trace, their token
fields being precisely the most recently extracted pair. -/
theorem C3_postbacks_carry_latest_tokens_unconditionally :
    ∀ inp : CrawlInput,
      Request.post DevelopmentApplicationsEnquirySearchUrl
          (tabSwitchForm inp.enquiryLists.eventValidation inp.enquiryLists.viewState)
        ∈ (crawl inp).requests ∧
      Request.post DevelopmentApplicationsEnquirySearchUrl
          (searchForm inp.tabSwitchResp.eventValidation inp.tabSwitchResp.viewState
            inp.dateFrom inp.dateTo)
        ∈ (crawl inp).requests := by
  intro inp
  have hmem1 : Request.post DevelopmentApplicationsEnquirySearchUrl
      (tabSwitchForm inp.enquiryLists.eventValidation inp.enquiryLists.viewState)
      ∈ crawlPrefixReqs inp := by
    unfold crawlPrefixReqs
    cases parseToken inp.landing.scripts <;> simp
  have hmem2 : Request.post DevelopmentApplicationsEnquirySearchUrl
      (searchForm inp.tabSwitchResp.eventValidation inp.tabSwitchResp.viewState
        inp.dateFrom inp.dateTo)
      ∈ crawlPrefixReqs inp := by
    unfold crawlPrefixReqs
    cases parseToken inp.landing.scripts <;> simp
  cases hpc : parsePageCount inp.searchResp.pageCountLabel with
  | none =>
    simp only [crawl, hpc]
    exact ⟨hmem1, hmem2⟩
  | some pc =>
    obtain ⟨extra, he, _⟩ :=
      crawlLoop_requests_shape inp pc (pc + 1) 1 inp.searchResp (crawlPrefixReqs inp) []
    simp only [crawl, hpc]
    rw [he]
    exact ⟨List.mem_append_left _ hmem1, List.mem_append_left _ hmem2⟩

/-- C8: when no client-capability marker is found on the landing page, the
run is not aborted: the trace still begins with the landing GET followed
directly by the enquiry-lists GET — the crawl proceeds — and no token
re-GET is ever issued. -/
theorem C8_missing_token_not_fatal :
    ∀ inp : CrawlInput, parseToken inp.landing.scripts = none →
      ((crawl inp).requests.take 2 =
          [Request.get DevelopmentApplicationsDefaultUrl,
           Request.get DevelopmentApplicationsEnquiryListsUrl] ∧
        ∀ r ∈ (crawl inp).requests, isJsTokenGet r = false) := by
  intro inp htok
  have hpre : crawlPrefixReqs inp =
      [Request.get DevelopmentApplicationsDefaultUrl,
       Request.get DevelopmentApplicationsEnquiryListsUrl,
       Request.post DevelopmentApplicationsEnquirySearchUrl
         (tabSwitchForm inp.enquiryLists.eventValidation inp.enquiryLists.viewState),
       Request.post DevelopmentApplicationsEnquirySearchUrl
         (searchForm inp.tabSwitchResp.eventValidation inp.tabSwitchResp.viewState
           inp.dateFrom inp.dateTo)] := by
    unfold crawlPrefixReqs
    rw [htok]
    rfl
  have hpre4 : ∀ r ∈ crawlPrefixReqs inp, isJsTokenGet r = false := by
    rw [hpre]
    intro r hr
    rcases List.mem_cons.mp hr with h | hr
    · rw [h]; decide
    rcases List.mem_cons.mp hr with h | hr
    · rw [h]; decide
    rcases List.mem_cons.mp hr with h | hr
    · rw [h]; rfl
    rcases List.mem_cons.mp hr with h | hr
    · rw [h]; rfl
    · cases hr
  cases hpc : parsePageCount inp.searchResp.pageCountLabel with
  | none =>
    constructor
    · simp only [crawl, hpc]
      rw [hpre]
      rfl
    · intro r hr
      apply hpre4
      simpa [crawl, hpc] using hr
  | some pc =>
    obtain ⟨extra, he, hpost⟩ :=
      crawlLoop_requests_shape inp pc (pc + 1) 1 inp.searchResp (crawlPrefixReqs inp) []
    have hreq : (crawl inp).requests = crawlPrefixReqs inp ++ extra := by
      simp only [crawl, hpc]
      exact he
    constructor
    · rw [hreq, hpre, List.take_append_of_le_length (by simp)]
      rfl
    · intro r hr
      rw [hreq] at hr
      rcases List.mem_append.mp hr with h | h
      · exact hpre4 r h
      · obtain ⟨u, f, rfl⟩ := hpost r h
        rfl

/-- Witness for C8: a concrete landing page without the marker. -/
theorem C8_missing_token_not_fatal_witness :
    parseToken inpC8w.landing.scripts = none ∧
      ((crawl inpC8w).requests.take 2 =
          [Request.get DevelopmentApplicationsDefaultUrl,
           Request.get DevelopmentApplicationsEnquiryListsUrl] ∧
        ∀ r ∈ (crawl inpC8w).requests, isJsTokenGet r = false) :=
  ⟨by decide, C8_missing_token_not_fatal inpC8w (by decide)⟩

end WestTorrens
